import Mathlib

/-!
Verification of the chess move-tree fragment of the repository: the tree
serialization utilities (`serializeTree`, `deserializeTree`, `validateTree`),
the reference navigator component (`makeInitialTree`, `gotoNode`,
`addMoveUci`) and the depth walk (`calculateDepth`).

Modelling conventions.
* A JavaScript object is modelled as an insertion-ordered association list
  `List (String × α)`; property read is `alookup`, property write is `objSet`
  (replacing the first occurrence of an existing key, otherwise appending:
  JS key update keeps the key's insertion position, a new key goes last).
* The JSON wire value is the inductive `Json`; `Json.stringify` is the
  JSON.stringify text (stable key order, no whitespace).  The external JSON
  library's `JSON.parse` of a `JSON.stringify` output returns an equal
  structure, so the decoder is modelled on the parsed `Json` value.
* JS numbers carried by the tree format are integers (`Int`).
* `undefined` is modelled as `Option.none` at property-read sites; note that
  JSON.stringify drops object properties whose value is `undefined`.
-/

/-- A JSON value (the wire format of the codec). -/
inductive Json where
  | null : Json
  | bool : Bool → Json
  | num : Int → Json
  | str : String → Json
  | arr : List Json → Json
  | obj : List (String × Json) → Json
deriving Repr

/-- Property read on an insertion-ordered association list (JS `o[k]`);
`none` models `undefined`. -/
def alookup (k : String) : List (String × α) → Option α
  | [] => none
  | (k', v) :: rest => if k' = k then some v else alookup k rest

/-- Property write (JS `o[k] = v`): updating an existing key keeps its
position, a new key is appended last. -/
def objSet (l : List (String × α)) (k : String) (v : α) : List (String × α) :=
  match l with
  | [] => [(k, v)]
  | (k', v') :: rest => if k' = k then (k, v) :: rest else (k', v') :: objSet rest k v

/-- JS truthiness of a JSON value: `null`, `false`, `0` and the empty string
are falsy, arrays and objects are always truthy. -/
def jFalsy : Json → Bool
  | .null => true
  | .bool b => !b
  | .num n => n == 0
  | .str s => s == ""
  | .arr _ => false
  | .obj _ => false

/-- Truthiness of a property read (`undefined` is falsy). -/
def optFalsy : Option Json → Bool
  | none => true
  | some v => jFalsy v

/-- Property read on a JSON value; non-objects have no named properties
(the exotic indexing of JS strings/arrays by property name is not used by
the codec's inputs and is not modelled). -/
def jGetField : Json → String → Option Json
  | .obj fields, k => alookup k fields
  | _, _ => none

mutual
/-- JS `String(v)` coercion of a JSON value: `null` prints `null`, booleans
and integers print themselves, arrays print comma-joined elements
(`Array.prototype.toString`), plain objects print `[object Object]`. -/
def jToString : Json → String
  | .null => "null"
  | .bool true => "true"
  | .bool false => "false"
  | .num n => toString n
  | .str s => s
  | .arr xs => jArrToString xs
  | .obj _ => "[object Object]"

/-- Comma-joined element coercion of `Array.prototype.toString`
(a `null` element prints as the empty string). -/
def jArrToString : List Json → String
  | [] => ""
  | [.null] => ""
  | [e] => jToString e
  | .null :: rest => "," ++ jArrToString rest
  | e :: rest => jToString e ++ "," ++ jArrToString rest
end

/-- One hexadecimal digit (lower case), as emitted by JSON.stringify's
control-character escapes. -/
def hexDigit (n : Nat) : Char :=
  if n < 10 then Char.ofNat (48 + n) else Char.ofNat (87 + n)

/-- JSON.stringify escaping of one character inside a string literal. -/
def escapeChar (c : Char) : String :=
  if c = '"' then "\\\""
  else if c = '\\' then "\\\\"
  else if c = '\n' then "\\n"
  else if c = '\r' then "\\r"
  else if c = '\t' then "\\t"
  else if c = (Char.ofNat 8) then "\\b"
  else if c = (Char.ofNat 12) then "\\f"
  else if c.toNat < 32 then
    "\\u00" ++ String.mk [hexDigit (c.toNat / 16), hexDigit (c.toNat % 16)]
  else String.singleton c

/-- JSON.stringify rendering of a string literal's body. -/
def escapeString (s : String) : String :=
  s.data.foldl (fun acc c => acc ++ escapeChar c) ""

mutual
/-- `JSON.stringify` of a value: object keys in insertion order, no
whitespace. -/
def Json.stringify : Json → String
  | .null => "null"
  | .bool true => "true"
  | .bool false => "false"
  | .num n => toString n
  | .str s => "\"" ++ escapeString s ++ "\""
  | .arr xs => "[" ++ stringifyArr xs ++ "]"
  | .obj fields => "\x7b" ++ stringifyObj fields ++ "\x7d"

/-- Comma-separated rendering of array elements. -/
def stringifyArr : List Json → String
  | [] => ""
  | [x] => Json.stringify x
  | x :: rest => Json.stringify x ++ "," ++ stringifyArr rest

/-- Comma-separated rendering of object fields, keys in order. -/
def stringifyObj : List (String × Json) → String
  | [] => ""
  | [(k, v)] => "\"" ++ escapeString k ++ "\":" ++ Json.stringify v
  | (k, v) :: rest =>
    "\"" ++ escapeString k ++ "\":" ++ Json.stringify v ++ "," ++ stringifyObj rest
end

/-- A node of the move tree (the declared `MoveNode` shape: the type of
`deserializeTree`'s output and `validateTree`'s input).  `parentId = none`
models `null`; `move`/`uci` `none` model an absent optional field. -/
structure MoveNode where
  id : String
  parentId : Option String
  children : List String
  move : Option String
  uci : Option String
  fen : String
  ply : Int
deriving Repr, DecidableEq

/-- The move tree: insertion-ordered node mapping plus the root id. -/
structure ChessMoveTree where
  nodes : List (String × MoveNode)
  rootId : String
deriving Repr, DecidableEq

/-- A possibly malformed object-valued runtime node, as `serializeTree`
defends against it: `children = none` models a non-array `children` value
and `ply = none` a non-number `ply` value (the two per-node coercions in
the source).  A falsy (`null`/`undefined`) node VALUE — an entry that is
not an object at all, on which the source crashes — is modelled one level
up, as a `none` value in `RawTree`'s node mapping. -/
structure RawNode where
  id : String
  parentId : Option String
  children : Option (List String)
  move : Option String
  uci : Option String
  fen : String
  ply : Option Int
deriving Repr, DecidableEq

/-- A possibly malformed runtime tree handed to `serializeTree`:
`nodes = none` / `rootId = none` model an absent property, and a `none`
VALUE inside the mapping models a falsy (`null`/`undefined`) node value —
on such a value the source's clean-copy loop crashes with a `TypeError`
when it reads `node.id`. -/
structure RawTree where
  nodes : Option (List (String × Option RawNode))
  rootId : Option String
deriving Repr, DecidableEq

/-- Injection of a well-typed node into the runtime shape. -/
def MoveNode.toRaw (n : MoveNode) : RawNode :=
  { id := n.id, parentId := n.parentId, children := some n.children,
    move := n.move, uci := n.uci, fen := n.fen, ply := some n.ply }

/-- Injection of a well-typed tree into the runtime shape (every node value
is a genuine object, hence `some`). -/
def ChessMoveTree.toRaw (t : ChessMoveTree) : RawTree :=
  { nodes := some (t.nodes.map fun kv => (kv.1, some kv.2.toRaw)),
    rootId := some t.rootId }

/-- The clean copy of one node built by `serializeTree`, as the JSON object
that `JSON.stringify` serializes: keys in the source's literal order
(`id`, `parentId`, `children`, `move`, `uci`, `fen`, `ply`), with
`undefined`-valued `move`/`uci` dropped by JSON.stringify, a non-array
`children` replaced by `[]` and a non-number `ply` replaced by `0`. -/
def cleanNodeJson (n : RawNode) : Json :=
  .obj ([("id", .str n.id),
         ("parentId", match n.parentId with | some p => .str p | none => .null),
         ("children", .arr ((n.children.getD []).map .str))]
    ++ (match n.move with | some m => [("move", .str m)] | none => [])
    ++ (match n.uci with | some u => [("uci", .str u)] | none => [])
    ++ [("fen", .str n.fen), ("ply", .num (n.ply.getD 0))])

/-- The clean-copy loop of `serializeTree` over `Object.entries(tree.nodes)`:
each object node is rewritten by `cleanNodeJson`; a falsy (`null`) node
value crashes — the source reads `node.id` on it, a JS `TypeError`,
modelled as the error channel. -/
def serializeCleanNodes : List (String × Option RawNode) → Except String (List (String × Json))
  | [] => .ok []
  | (_, none) :: _ => .error "TypeError: cannot read id of a falsy node value"
  | (k, some n) :: rest =>
    match serializeCleanNodes rest with
    | .error e => .error e
    | .ok js => .ok ((k, cleanNodeJson n) :: js)

/-- `serializeTree` up to its final `JSON.stringify`: the four top-level
checks (tree present, `nodes` present, `rootId` truthy, root node present
and truthy — a `null` root entry is falsy), then the clean copy of the
tree, which crashes on a falsy node value.  `none` input models a falsy
`tree` argument; an empty-string `rootId` is falsy in JS and rejected. -/
def serializeTreeCore : Option RawTree → Except String Json
  | none => .error "Tree must be an object"
  | some t =>
    match t.nodes with
    | none => .error "Tree must have a nodes property"
    | some nodes =>
      match t.rootId with
      | none => .error "Tree must have a rootId string property"
      | some rootId =>
        if rootId = "" then .error "Tree must have a rootId string property"
        else if ((alookup rootId nodes).join).isNone then
          .error "Root node does not exist in nodes"
        else
          match serializeCleanNodes nodes with
          | .error e => .error e
          | .ok cleanNodes =>
            .ok (.obj [("nodes", .obj cleanNodes), ("rootId", .str rootId)])

/-- `serializeTree`: the JSON string stored in the database. -/
def serializeTree (t : Option RawTree) : Except String String :=
  (serializeTreeCore t).map Json.stringify

/-- Validation and normalization of one decoded node (the body of
`deserializeTree`'s loop): a falsy or non-object node value throws, a node
whose `id` is not the string equal to its key throws (an array value passes
JS `typeof === 'object'` but has no `id` property, so it throws there), and
every kept field is coerced exactly as in the source:
`parentId === null ? null : String(parentId)` (so an absent `parentId`
becomes the string `undefined`), `children` kept only when an array (its
elements coerced by `String`), `move`/`uci` kept only when present,
`fen` coerced by `String`, `ply` kept only when a number, else `0`. -/
def decodeNode (nodeId : String) : Json → Except String MoveNode
  | .obj fields =>
    -- `nodeObj.id !== nodeId`: strict equality of the property against the
    -- string key holds exactly when the property is that string
    match alookup "id" fields with
    | some (.str s) =>
      if s = nodeId then
        .ok { id := nodeId,
              parentId :=
                match alookup "parentId" fields with
                | some .null => none
                | some v => some (jToString v)
                | none => some "undefined",
              children :=
                match alookup "children" fields with
                | some (.arr xs) => xs.map jToString
                | _ => [],
              move := (alookup "move" fields).map jToString,
              uci := (alookup "uci" fields).map jToString,
              fen := match alookup "fen" fields with
                     | some v => jToString v
                     | none => "undefined",
              ply := match alookup "ply" fields with
                     | some (.num m) => m
                     | _ => 0 }
      else .error ("Node ID mismatch: expected " ++ nodeId)
    | _ => .error ("Node ID mismatch: expected " ++ nodeId)
  | .arr _ => .error ("Node ID mismatch: expected " ++ nodeId)
  | _ => .error ("Node " ++ nodeId ++ " must be an object")

/-- The decode loop over `Object.entries(parsed.nodes)`, accumulating
`validatedNodes[nodeId] = ...` assignments. -/
def decodeNodes : List (String × Json) → List (String × MoveNode) →
    Except String (List (String × MoveNode))
  | [], acc => .ok acc
  | (k, nj) :: rest, acc =>
    match decodeNode k nj with
    | .error e => .error e
    | .ok n => decodeNodes rest (objSet acc k n)

/-- `deserializeTree` after the external `JSON.parse` step (the JSON library
parses the stored string back to the `Json` value; empty-string and
syntax-error inputs fail inside that library call).  Checks the parsed value
is truthy, has truthy `nodes` and `rootId` properties and a truthy root
node, then validates and normalizes every node.  A truthy non-object
`nodes` value is always rejected in JS as well (its entries are never
objects), and is rejected here at the root-existence check. -/
def deserializeTree (j : Json) : Except String ChessMoveTree :=
  if jFalsy j then .error "Parsed JSON must be an object"
  else
    match jGetField j "nodes" with
    | none => .error "Tree must have a nodes property"
    | some nodesV =>
      if jFalsy nodesV then .error "Tree must have a nodes property"
      else
        match jGetField j "rootId" with
        | none => .error "Tree must have a rootId string property"
        | some rootV =>
          if jFalsy rootV then .error "Tree must have a rootId string property"
          else
            match nodesV with
            | .obj entries =>
              if optFalsy (alookup (jToString rootV) entries) then
                .error "Root node does not exist in nodes"
              else
                match decodeNodes entries [] with
                | .error e => .error e
                | .ok ns => .ok { nodes := ns, rootId := jToString rootV }
            | _ => .error "Root node does not exist in nodes"

/-- Error list collected by one `if (cond) errors.push(msg)` site. -/
def pushIf (c : Prop) [Decidable c] (msg : String) : List String :=
  if c then [msg] else []

/-- Errors collected by a loop body over a list (`for ... errors.push`). -/
def errConcat (f : α → List String) : List α → List String
  | [] => []
  | a :: l => f a ++ errConcat f l

/-- `validateTree`'s result shape. -/
structure ValidationResult where
  isValid : Bool
  errors : List String
deriving Repr, DecidableEq

/-- Lookup of a node by id in a tree (JS `tree.nodes[id]`). -/
def findNode (t : ChessMoveTree) (k : String) : Option MoveNode :=
  alookup k t.nodes

/-- The errors `validateTree`'s per-node loop pushes for one entry, in
source order: mismatched id, then non-existent parent (skipped when
`parentId` is `null`), then per-child existence and back-reference checks.
In the well-typed model a node value is always an object (`if (!node)` is
unreachable), `children` is always an array, and the final
`typeof fen`/`typeof ply` checks always pass; those branches contribute no
errors here. -/
def nodeErrors (t : ChessMoveTree) (kv : String × MoveNode) : List String :=
  pushIf (kv.2.id ≠ kv.1) ("Node " ++ kv.1 ++ " has mismatched ID: " ++ kv.2.id)
  ++ (match kv.2.parentId with
      | some p =>
        pushIf (findNode t p).isNone
          ("Node " ++ kv.1 ++ " references non-existent parent " ++ p)
      | none => [])
  ++ errConcat (fun childId =>
       match findNode t childId with
       | none => ["Node " ++ kv.1 ++ " references non-existent child " ++ childId]
       | some childNode =>
         pushIf (childNode.parentId ≠ some kv.1)
           ("Node " ++ childId ++ " parentId " ++ childNode.parentId.getD "null"
             ++ " does not match parent " ++ kv.1)) kv.2.children

/-- `validateTree`: never throws; collects every violation found.  The
`!tree` and `!tree.nodes` early returns are unreachable in the well-typed
model (a tree and its node object are always truthy); the `!tree.rootId`
early return fires for the falsy empty-string root id.  (Error message
texts are kept verbatim except that the source's single quotes around
interpolated ids are dropped.) -/
def validateTree (t : ChessMoveTree) : ValidationResult :=
  if t.rootId = "" then
    { isValid := false, errors := ["Tree must have a rootId string property"] }
  else
    let errors :=
      pushIf (findNode t t.rootId).isNone
        ("Root node " ++ t.rootId ++ " does not exist in nodes")
      ++ (match findNode t t.rootId with
          | some rootNode =>
            pushIf (rootNode.parentId ≠ none)
              ("Root node " ++ t.rootId ++ " should have parentId null, got "
                ++ rootNode.parentId.getD "null")
          | none => [])
      ++ errConcat (nodeErrors t) t.nodes
    { isValid := errors.isEmpty, errors := errors }

/-! ## The data-model invariants, stated from the specification (§3)

These are the specification's words, not the validator's code: they are the
other side of the validator-soundness comparison. -/

/-- Invariant 1: `nodes[rootId]` exists and its `parentId` is absent. -/
def specInv1 (t : ChessMoveTree) : Bool :=
  match findNode t t.rootId with
  | some r => r.parentId.isNone
  | none => false

/-- Invariant 2: every node's `id` equals its key in `nodes`. -/
def specInv2 (t : ChessMoveTree) : Bool :=
  t.nodes.all fun kv => kv.2.id == kv.1

/-- Invariant 3: for every non-root node, `nodes[node.parentId]` exists
(in particular a non-root node carries a parent reference). -/
def specInv3 (t : ChessMoveTree) : Bool :=
  t.nodes.all fun kv =>
    kv.1 == t.rootId ||
      (match kv.2.parentId with
       | some p => (findNode t p).isSome
       | none => false)

/-- Invariant 4: every listed child exists and back-references its parent. -/
def specInv4 (t : ChessMoveTree) : Bool :=
  t.nodes.all fun kv =>
    kv.2.children.all fun c =>
      match findNode t c with
      | some cn => cn.parentId == some kv.1
      | none => false

/-- Invariant 5: `children` contains no duplicates. -/
def specInv5 (t : ChessMoveTree) : Bool :=
  t.nodes.all fun kv => kv.2.children.dedup.length == kv.2.children.length

/-- Invariant 7: every node with a parent has `ply` exactly one greater
than its parent's `ply`. -/
def specInv7 (t : ChessMoveTree) : Bool :=
  t.nodes.all fun kv =>
    match kv.2.parentId with
    | none => true
    | some p =>
      match findNode t p with
      | some pn => kv.2.ply == pn.ply + 1
      | none => false

/-- Invariants 1–5 and 7 of the data model together (invariant 6,
acyclicity, is guaranteed by construction and not part of the validator
comparison). -/
def specWellFormed (t : ChessMoveTree) : Bool :=
  specInv1 t && specInv2 t && specInv3 t && specInv4 t && specInv5 t && specInv7 t

/-- The condition the validator's parent check actually enforces: every
node whose `parentId` is non-null references an existing node. -/
def parentRefsOk (t : ChessMoveTree) : Bool :=
  t.nodes.all fun kv =>
    match kv.2.parentId with
    | some p => (findNode t p).isSome
    | none => true

/-! ## The reference navigator component (`chess_move_tree.tsx`) -/

/-- The React component's state relevant to the tree logic: the node
mapping, the root id, the cursor (`currentId`), the square selection, the
status message, and the `genId` closure's counter (`genId` returns
`prefix ++ toString n` and increments `n`). -/
structure AppState where
  nodes : List (String × MoveNode)
  rootId : String
  currentId : String
  selectedSquare : Option String
  statusMsg : String
  nextN : Nat
deriving Repr, DecidableEq

/-- A successful move as reported by the external rules engine
(chess.js `c.move(...)` result plus the resulting `c.fen()`). -/
structure EngineMove where
  san : String
  fen : String
deriving Repr, DecidableEq

/-- `makeInitialTree` as written: it computes a fresh one-node root (via
`genId("r")` and `new Chess().fen()`) but then ignores it — the single-node
`return` is commented out in the source — and instead returns this
hard-coded 19-node example tree rooted at `r1`. -/
def makeInitialTree : ChessMoveTree :=
  { nodes :=
      [("r1", { id := "r1", parentId := none, children := ["n1", "v1"],
                    move := none, uci := none,
                    fen := "rnbqkbnr/pppppppp/8/8/8/8/PPPPPPPP/RNBQKBNR w KQkq - 0 1", ply := 0 }),
       ("n1", { id := "n1", parentId := some "r1", children := ["n2", "v2"],
                    move := some "e4", uci := some "e2e4",
                    fen := "rnbqkbnr/pppppppp/8/8/4P3/8/PPPP1PPP/RNBQKBNR b KQkq e3 0 1", ply := 1 }),
       ("n2", { id := "n2", parentId := some "n1", children := ["n3"],
                    move := some "e5", uci := some "e7e5",
                    fen := "rnbqkbnr/pppp1ppp/8/4p3/4P3/8/PPPP1PPP/RNBQKBNR w KQkq e6 0 2", ply := 2 }),
       ("n3", { id := "n3", parentId := some "n2", children := ["n4"],
                    move := some "Nf3", uci := some "g1f3",
                    fen := "rnbqkbnr/pppp1ppp/8/4p3/4P3/5N2/PPPP1PPP/RNBQKB1R b KQkq - 1 2", ply := 3 }),
       ("n4", { id := "n4", parentId := some "n3", children := ["n5", "v3"],
                    move := some "Nc6", uci := some "b8c6",
                    fen := "r1bqkbnr/pppp1ppp/2n5/4p3/4P3/5N2/PPPP1PPP/RNBQKB1R w KQkq - 2 3", ply := 4 }),
       ("n5", { id := "n5", parentId := some "n4", children := ["n6"],
                    move := some "Bb5", uci := some "f1b5",
                    fen := "r1bqkbnr/pppp1ppp/2n5/1B2p3/4P3/5N2/PPPP1PPP/RNBQK2R b KQkq - 3 3", ply := 5 }),
       ("n6", { id := "n6", parentId := some "n5", children := ["n7"],
                    move := some "a6", uci := some "a7a6",
                    fen := "r1bqkbnr/1ppp1ppp/2n5/1B2p3/4P3/5N2/PPPP1PPP/RNBQK2R w KQkq - 0 4", ply := 6 }),
       ("n7", { id := "n7", parentId := some "n6", children := ["n8"],
                    move := some "Ba4", uci := some "b5a4",
                    fen := "r1bqkbnr/1ppp1ppp/2n5/4p3/B3P3/5N2/PPPP1PPP/RNBQK2R b KQkq - 1 4", ply := 7 }),
       ("n8", { id := "n8", parentId := some "n7", children := ["n9"],
                    move := some "Nf6", uci := some "g8f6",
                    fen := "r1bqkb1r/1ppp1ppp/2n2n2/4p3/B3P3/5N2/PPPP1PPP/RNBQK2R w KQkq - 2 5", ply := 8 }),
       ("n9", { id := "n9", parentId := some "n8", children := [],
                    move := some "O-O", uci := some "e1g1",
                    fen := "r1bqkb1r/1ppp1ppp/2n2n2/4p3/B3P3/5N2/PPPP1PPP/RNBQ1RK1 b kq - 3 5", ply := 9 }),
       ("v1", { id := "v1", parentId := some "r1", children := ["v1a", "v1b"],
                    move := some "c5", uci := some "c7c5",
                    fen := "rnbqkbnr/pp1ppppp/8/2p5/4P3/8/PPPP1PPP/RNBQKBNR w KQkq c6 0 2", ply := 1 }),
       ("v1a", { id := "v1a", parentId := some "v1", children := ["v1a1"],
                    move := some "Nf3", uci := some "g1f3",
                    fen := "rnbqkbnr/pp1ppppp/8/2p5/4P3/5N2/PPPP1PPP/RNBQKB1R b KQkq - 1 2", ply := 2 }),
       ("v1a1", { id := "v1a1", parentId := some "v1a", children := [],
                    move := some "d6", uci := some "d7d6",
                    fen := "rnbqkbnr/pp2pppp/3p4/2p5/4P3/5N2/PPPP1PPP/RNBQKB1R w KQkq - 0 3", ply := 3 }),
       ("v1b", { id := "v1b", parentId := some "v1", children := [],
                    move := some "d4", uci := some "d2d4",
                    fen := "rnbqkbnr/pp1ppppp/8/2p5/3PP3/8/PPP2PPP/RNBQKBNR b KQkq d3 0 2", ply := 2 }),
       ("v2", { id := "v2", parentId := some "n1", children := ["v2a"],
                    move := some "d4", uci := some "d2d4",
                    fen := "rnbqkbnr/pppp1ppp/8/4p3/3PP3/8/PPP2PPP/RNBQKBNR b KQkq d3 0 2", ply := 2 }),
       ("v2a", { id := "v2a", parentId := some "v2", children := ["v2a1"],
                    move := some "exd4", uci := some "e5d4",
                    fen := "rnbqkbnr/pppp1ppp/8/8/3pP3/8/PPP2PPP/RNBQKBNR w KQkq - 0 3", ply := 3 }),
       ("v2a1", { id := "v2a1", parentId := some "v2a", children := [],
                    move := some "Nc3", uci := some "b1c3",
                    fen := "rnbqkbnr/pppp1ppp/8/8/3pP3/2N5/PPP2PPP/R1BQKBNR b KQkq - 1 3", ply := 4 }),
       ("v3", { id := "v3", parentId := some "n4", children := ["v3a"],
                    move := some "Nf6", uci := some "g8f6",
                    fen := "r1bqkb1r/pppp1ppp/2n2n2/4p3/4P3/5N2/PPPP1PPP/RNBQKB1R w KQkq - 2 3", ply := 4 }),
       ("v3a", { id := "v3a", parentId := some "v3", children := [],
                    move := some "d4", uci := some "d2d4",
                    fen := "r1bqkb1r/pppp1ppp/2n2n2/4p3/3PP3/5N2/PPP2PPP/RNBQKB1R b KQkq d3 0 4", ply := 5 })],
    rootId := "r1" }

/-- `gotoNode(id)`: sets `currentId` to `id` unconditionally (no membership
check), clears the square selection and the status message. -/
def gotoNode (st : AppState) (id : String) : AppState :=
  { st with currentId := id, selectedSquare := none, statusMsg := "" }

/-- `addMoveUci(from, to, promotion)`: reads the current node, asks the
external rules engine (chess.js, passed here as the `engine` parameter) to
apply the move to its position; on rejection only sets the status message;
on success builds the new node with `ply = cur.ply + 1`, a fresh id from
`genId("n")`, spreads it into a copy of the mapping, appends its id to the
parent's `children`, and advances the cursor.  `none` models the JS
`TypeError` crash when `nodes[currentId]` is `undefined` (the component
never reaches that state). -/
def addMoveUci (engine : String → String → String → Option String → Option EngineMove)
    (st : AppState) (f t : String) (promotion : Option String) : Option AppState :=
  match alookup st.currentId st.nodes with
  | none => none
  | some cur =>
    match engine cur.fen f t promotion with
    | none => some { st with statusMsg := "Illegal move: " ++ f ++ "-" ++ t }
    | some res =>
      let newId := "n" ++ toString st.nextN
      let node : MoveNode :=
        { id := newId, parentId := some st.currentId, children := [],
          move := some res.san, uci := some (f ++ t ++ promotion.getD ""),
          fen := res.fen, ply := cur.ply + 1 }
      let copy := objSet st.nodes newId node
      match alookup st.currentId copy with
      | none => none
      | some parent =>
        let copy2 := objSet copy st.currentId { parent with children := parent.children ++ [newId] }
        some { st with nodes := copy2, currentId := newId, selectedSquare := none,
                       statusMsg := "Played " ++ res.san, nextN := st.nextN + 1 }

/-! ## The depth walk (`calculateDepth` in `main.ts`) -/

/-- The child loop of the depth walk: walk each element, failing (running
out of fuel) as soon as one walk fails. -/
def omapM (f : α → Option β) : List α → Option (List β)
  | [] => some []
  | a :: l =>
    match f a, omapM f l with
    | some b, some bs => some (b :: bs)
    | _, _ => none

/-- `calculateDepth(nodeId, visited)` with an explicit fuel bound standing
for the JS call stack: `none` means the recursion would still be running
after `fuel` nested calls.  A node already in the per-call visited set
yields 0, a missing node yields 0, a leaf yields 1, otherwise each child is
walked with its own copy (`new Set(visited)`) of the visited set extended
by this node, and the maximum child depth plus one is returned.  (The
source's `leafNodes++` side statistic does not affect the returned depth
and is not modelled.) -/
def calculateDepthFuel (nodes : List (String × MoveNode)) :
    Nat → String → List String → Option Nat
  | 0, _, _ => none
  | fuel + 1, nodeId, visited =>
    if nodeId ∈ visited then some 0
    else
      match alookup nodeId nodes with
      | none => some 0
      | some node =>
        if node.children.isEmpty then some 1
        else
          match omapM (fun c => calculateDepthFuel nodes fuel c (nodeId :: visited)) node.children with
          | none => none
          | some ds => some (ds.foldl max 0 + 1)

/-! ## Concrete inputs used by witnesses and counterexamples -/

/-- A well-typed tree the validator accepts although its root lists the same
child twice (invariant 5 broken) and the child's `ply` is 5 instead of the
parent's `ply + 1` (invariant 7 broken). -/
def dupChildTree : ChessMoveTree :=
  { nodes :=
      [("r1", { id := "r1", parentId := none, children := ["a1", "a1"],
                move := none, uci := none, fen := "F0", ply := 0 }),
       ("a1", { id := "a1", parentId := some "r1", children := [],
                move := some "e4", uci := some "e2e4", fen := "F1", ply := 5 })],
    rootId := "r1" }

/-- A concrete one-node navigator state. -/
def navState : AppState :=
  { nodes := [("r1", { id := "r1", parentId := none, children := [],
                       move := none, uci := none, fen := "F0", ply := 0 })],
    rootId := "r1", currentId := "r1", selectedSquare := none, statusMsg := "",
    nextN := 2 }

/-- A rules engine that rejects every move. -/
def engineReject : String → String → String → Option String → Option EngineMove :=
  fun _ _ _ _ => none

/-- A rules engine that accepts every move, answering `e4` / position `F1`. -/
def engineAccept : String → String → String → Option String → Option EngineMove :=
  fun _ _ _ _ => some { san := "e4", fen := "F1" }

/-- The number of keys of the mapping not yet in the visited set: the
measure that shrinks at every recursive call of the depth walk. -/
def unvisitedCount (nodes : List (String × MoveNode)) (visited : List String) : Nat :=
  ((nodes.map Prod.fst).toFinset.filter (fun k => k ∉ visited)).card

/-- A data-model-valid one-node tree whose root id is the empty string —
a falsy id in JS, so the encoder rejects it. -/
def emptyIdTree : ChessMoveTree :=
  { nodes := [("", { id := "", parentId := none, children := [], move := none,
                     uci := none, fen := "F0", ply := 0 })],
    rootId := "" }

/-- A small two-node spec-valid tree. -/
def sampleTree : ChessMoveTree :=
  { nodes :=
      [("r1", { id := "r1", parentId := none, children := ["a1"], move := none,
                uci := none, fen := "F0", ply := 0 }),
       ("a1", { id := "a1", parentId := some "r1", children := [], move := some "e4",
                uci := some "e2e4", fen := "F1", ply := 1 })],
    rootId := "r1" }

/-- A parsed wire value whose only node is malformed: `children` is a
number (not an array), `ply` is a string (not a number), `move`/`uci` are
absent — yet `deserializeTree` accepts it. -/
def oddNodeJson : Json :=
  .obj [("nodes", .obj [("r1",
          .obj [("id", .str "r1"), ("parentId", .null),
                ("children", .num 5), ("fen", .str "F0"), ("ply", .str "x")])]),
        ("rootId", .str "r1")]

/-- The tree `deserializeTree` returns for `oddNodeJson`. -/
def oddDecoded : ChessMoveTree :=
  { nodes := [("r1", { id := "r1", parentId := none, children := [], move := none,
                       uci := none, fen := "F0", ply := 0 })],
    rootId := "r1" }

/-- A runtime tree whose non-root node has a non-array `children` value and
a non-number `ply` value. -/
def rawLenientTree : RawTree :=
  { nodes := some
      ([("r1", { id := "r1", parentId := none, children := some [], move := none,
                 uci := none, fen := "F0", ply := some 0 }),
        ("b1", { id := "b1", parentId := some "r1", children := none, move := none,
                 uci := none, fen := "F1", ply := none })].map
        fun kv => (kv.1, some kv.2)),
    rootId := some "r1" }

/-- The object-valued node entries of `rawLenientTree`. -/
def rawLenientNodes : List (String × RawNode) :=
  [("r1", { id := "r1", parentId := none, children := some [], move := none,
            uci := none, fen := "F0", ply := some 0 }),
   ("b1", { id := "b1", parentId := some "r1", children := none, move := none,
            uci := none, fen := "F1", ply := none })]

/-- A runtime tree that passes all four top-level encoder checks although
its second node VALUE is falsy (`null`): the clean-copy loop then crashes
reading `node.id` of it. -/
def nullNodeTree : RawTree :=
  { nodes := some
      [("r1", some { id := "r1", parentId := none, children := some [], move := none,
                     uci := none, fen := "F0", ply := some 0 }),
       ("b1", none)],
    rootId := some "r1" }

/-- The component state right after mounting: the shipped 19-node demo tree
(`makeInitialTree`), the cursor on the root, and the `genId` counter at 2 —
`makeInitialTree` consumed `r1` at counter 1, while the demo tree's nodes
`n1`–`n9` were never produced by the counter. -/
def demoState : AppState :=
  { nodes := makeInitialTree.nodes, rootId := "r1", currentId := "r1",
    selectedSquare := none,
    statusMsg := "Click a piece, then a destination to make a move.", nextN := 2 }

/-- A two-node tree satisfying every §3 invariant that already contains the
id `n2` — the id `genId` generates next when its counter stands at 2. -/
def collideTree : ChessMoveTree :=
  { nodes :=
      [("r1", { id := "r1", parentId := none, children := ["n2"], move := none,
                uci := none, fen := "F0", ply := 0 }),
       ("n2", { id := "n2", parentId := some "r1", children := [], move := some "e5",
                uci := some "e7e5", fen := "F2", ply := 1 })],
    rootId := "r1" }

/-- The navigator state holding `collideTree` with the cursor on the root
and the `genId` counter at 2. -/
def collideState : AppState :=
  { nodes := collideTree.nodes, rootId := "r1", currentId := "r1",
    selectedSquare := none, statusMsg := "", nextN := 2 }

/-! ## Association-list lemmas -/

theorem alookup_eq_none (k : String) (l : List (String × α)) :
    alookup k l = none ↔ k ∉ l.map Prod.fst := by
  induction l with
  | nil => simp [alookup]
  | cons kv rest ih =>
    obtain ⟨k', v⟩ := kv
    by_cases h : k' = k
    · subst h
      simp [alookup]
    · have h2 : ¬k = k' := fun he => h he.symm
      simp [alookup, h, h2, ih]

theorem alookup_isSome (k : String) (l : List (String × α)) :
    (alookup k l).isSome ↔ k ∈ l.map Prod.fst := by
  induction l with
  | nil => simp [alookup]
  | cons kv rest ih =>
    obtain ⟨k', v⟩ := kv
    by_cases h : k' = k
    · subst h
      simp [alookup]
    · have h2 : ¬k = k' := fun he => h he.symm
      simp [alookup, h, h2, ih]

theorem alookup_of_mem_nodup {k : String} {v : α} {l : List (String × α)}
    (hnd : (l.map Prod.fst).Nodup) (hmem : (k, v) ∈ l) : alookup k l = some v := by
  induction l with
  | nil => cases hmem
  | cons kv rest ih =>
    obtain ⟨k', v'⟩ := kv
    simp only [List.map_cons, List.nodup_cons] at hnd
    rcases List.mem_cons.1 hmem with h | h
    · cases h
      simp [alookup]
    · have hk : k' ≠ k := by
        intro he
        have hmm : k ∈ rest.map Prod.fst := List.mem_map_of_mem Prod.fst h
        rw [← he] at hmm
        exact hnd.1 hmm
      simp [alookup, hk, ih hnd.2 h]

theorem alookup_append (k : String) (a b : List (String × α)) :
    alookup k (a ++ b) =
      match alookup k a with
      | some v => some v
      | none => alookup k b := by
  induction a with
  | nil => simp [alookup]
  | cons kv rest ih =>
    obtain ⟨k', v'⟩ := kv
    by_cases h : k' = k <;> simp [alookup, h, ih]

theorem alookup_map_value (k : String) (f : α → β) (l : List (String × α)) :
    alookup k (l.map fun kv => (kv.1, f kv.2)) = (alookup k l).map f := by
  induction l with
  | nil => simp [alookup]
  | cons kv rest ih =>
    obtain ⟨k', v'⟩ := kv
    by_cases h : k' = k <;> simp [alookup, h, ih]

theorem objSet_of_alookup_none {k : String} {l : List (String × α)}
    (h : alookup k l = none) (v : α) : objSet l k v = l ++ [(k, v)] := by
  induction l with
  | nil => simp [objSet]
  | cons kv rest ih =>
    obtain ⟨k', v'⟩ := kv
    simp only [alookup] at h
    by_cases he : k' = k
    · simp [he] at h
    · simp [objSet, he, ih (by simpa [he] using h)]

theorem alookup_objSet_self (k : String) (v : α) (l : List (String × α)) :
    alookup k (objSet l k v) = some v := by
  induction l with
  | nil => simp [objSet, alookup]
  | cons kv rest ih =>
    obtain ⟨k', v'⟩ := kv
    by_cases h : k' = k <;> simp [objSet, alookup, h, ih]

theorem alookup_objSet_ne {k' k : String} (h : k' ≠ k) (v : α) (l : List (String × α)) :
    alookup k' (objSet l k v) = alookup k' l := by
  have h2 : ¬k = k' := fun he => h he.symm
  induction l with
  | nil => simp [objSet, alookup, h2]
  | cons kv rest ih =>
    obtain ⟨k'', v''⟩ := kv
    by_cases he : k'' = k
    · subst he
      simp [objSet, alookup, h2]
    · by_cases he' : k'' = k'
      · subst he'
        simp [objSet, alookup, he, h2]
      · simp [objSet, alookup, he, he', ih]

theorem length_objSet_of_isSome {k : String} {l : List (String × α)}
    (h : (alookup k l).isSome) (v : α) : (objSet l k v).length = l.length := by
  induction l with
  | nil => simp [alookup] at h
  | cons kv rest ih =>
    obtain ⟨k', v'⟩ := kv
    simp only [alookup] at h
    by_cases he : k' = k
    · simp [objSet, he]
    · simp only [he, if_false] at h
      simp [objSet, he, ih h]

/-! ## Error-list lemmas for the validator -/

theorem pushIf_eq_nil {c : Prop} [Decidable c] {msg : String} :
    pushIf c msg = [] ↔ ¬c := by
  by_cases h : c <;> simp [pushIf, h]

theorem errConcat_eq_nil {f : α → List String} {l : List α} :
    errConcat f l = [] ↔ ∀ a ∈ l, f a = [] := by
  induction l with
  | nil => simp [errConcat]
  | cons a rest ih => simp [errConcat, ih]

/-! ## The validator's acceptance condition -/

theorem nodeErrors_nil_iff (t : ChessMoveTree) (kv : String × MoveNode) :
    nodeErrors t kv = [] ↔
      (kv.2.id = kv.1 ∧
       (match kv.2.parentId with
        | some p => (findNode t p).isSome
        | none => true) = true ∧
       ∀ c ∈ kv.2.children,
         (match findNode t c with
          | some cn => cn.parentId == some kv.1
          | none => false) = true) := by
  unfold nodeErrors
  simp only [List.append_eq_nil, errConcat_eq_nil]
  constructor
  · rintro ⟨⟨h1, h2⟩, h3⟩
    refine ⟨not_not.1 (pushIf_eq_nil.1 h1), ?_, ?_⟩
    · cases hp : kv.2.parentId with
      | none => rfl
      | some p =>
        simp only [hp] at h2
        have h2' := pushIf_eq_nil.1 h2
        cases hf : findNode t p with
        | none => rw [hf] at h2'; exact absurd rfl h2'
        | some cn => simp [hf]
    · intro c hc
      have h4 := h3 c hc
      cases hf : findNode t c with
      | none => rw [hf] at h4; cases h4
      | some cn =>
        rw [hf] at h4
        have h4' := not_not.1 (pushIf_eq_nil.1 h4)
        simp [beq_iff_eq, h4']
  · rintro ⟨h1, h2, h3⟩
    refine ⟨⟨pushIf_eq_nil.2 (not_not.2 h1), ?_⟩, ?_⟩
    · cases hp : kv.2.parentId with
      | none => rfl
      | some p =>
        simp only [hp] at h2
        apply pushIf_eq_nil.2
        intro hnone
        rw [Option.isNone_iff_eq_none] at hnone
        rw [hnone] at h2
        cases h2
    · intro c hc
      have h4 := h3 c hc
      cases hf : findNode t c with
      | none => rw [hf] at h4; cases h4
      | some cn =>
        rw [hf] at h4
        apply pushIf_eq_nil.2
        exact not_not.2 (by simpa [beq_iff_eq] using h4)

/-- C1 (amended): `validateTree` reports zero errors exactly when the root
id is truthy, invariant 1 (root exists with null `parentId`), invariant 2
(ids match keys) and invariant 4 (children exist and back-reference their
parent) hold, and every non-null `parentId` references an existing node
(the validator's reading of invariant 3).  Invariant 5 (duplicate-free
children) and invariant 7 (`ply` increments) are not checked. -/
theorem C1_validator_acceptance (t : ChessMoveTree) :
    (validateTree t).errors = [] ↔
      (t.rootId ≠ "" ∧ specInv1 t = true ∧ specInv2 t = true ∧
       parentRefsOk t = true ∧ specInv4 t = true) := by
  by_cases hr : t.rootId = ""
  · simp [validateTree, hr]
  · have hshape :
        (validateTree t).errors =
          pushIf (findNode t t.rootId).isNone
            ("Root node " ++ t.rootId ++ " does not exist in nodes")
          ++ (match findNode t t.rootId with
              | some rootNode =>
                pushIf (rootNode.parentId ≠ none)
                  ("Root node " ++ t.rootId ++ " should have parentId null, got "
                    ++ rootNode.parentId.getD "null")
              | none => [])
          ++ errConcat (nodeErrors t) t.nodes := by
      unfold validateTree
      rw [if_neg hr]
    rw [hshape, List.append_eq_nil, List.append_eq_nil, errConcat_eq_nil]
    constructor
    · rintro ⟨⟨hA, hB⟩, hC⟩
      refine ⟨hr, ?_, ?_, ?_, ?_⟩
      · unfold specInv1
        cases hf : findNode t t.rootId with
        | none =>
          rw [hf] at hA
          exact absurd rfl (pushIf_eq_nil.1 hA)
        | some r =>
          simp only [hf] at hB
          have hB' := not_not.1 (pushIf_eq_nil.1 hB)
          simp [hB']
      · unfold specInv2
        rw [List.all_eq_true]
        intro kv hkv
        have h := (nodeErrors_nil_iff t kv).1 (hC kv hkv)
        simpa [beq_iff_eq] using h.1
      · unfold parentRefsOk
        rw [List.all_eq_true]
        intro kv hkv
        exact ((nodeErrors_nil_iff t kv).1 (hC kv hkv)).2.1
      · unfold specInv4
        rw [List.all_eq_true]
        intro kv hkv
        rw [List.all_eq_true]
        intro c hc
        exact ((nodeErrors_nil_iff t kv).1 (hC kv hkv)).2.2 c hc
    · rintro ⟨-, h1, h2, h3, h4⟩
      unfold specInv1 at h1
      unfold specInv2 at h2
      unfold parentRefsOk at h3
      unfold specInv4 at h4
      refine ⟨⟨?_, ?_⟩, ?_⟩
      · cases hf : findNode t t.rootId with
        | none => rw [hf] at h1; cases h1
        | some r =>
          apply pushIf_eq_nil.2
          simp
      · cases hf : findNode t t.rootId with
        | none => rfl
        | some r =>
          simp only [hf] at h1 ⊢
          apply pushIf_eq_nil.2
          exact not_not.2 (Option.isNone_iff_eq_none.1 h1)
      · intro kv hkv
        apply (nodeErrors_nil_iff t kv).2
        refine ⟨?_, ?_, ?_⟩
        · have h := List.all_eq_true.1 h2 kv hkv
          simpa [beq_iff_eq] using h
        · exact List.all_eq_true.1 h3 kv hkv
        · intro c hc
          exact List.all_eq_true.1 (List.all_eq_true.1 h4 kv hkv) c hc


/-- C1 counterexample: `validateTree` reports zero errors on `dupChildTree`
although invariants 5 and 7 fail there, so "zero errors iff invariants 1–5
and 7 hold" is false as stated. -/
theorem C1_counterexample :
    (validateTree dupChildTree).errors = [] ∧ specInv5 dupChildTree = false ∧
      specInv7 dupChildTree = false ∧
      ¬(((validateTree dupChildTree).errors = []) ↔ specWellFormed dupChildTree = true) := by
  refine ⟨by decide, by decide, by decide, ?_⟩
  intro h
  exact absurd (h.1 (by decide)) (by decide)

/-- C3: `makeInitialTree` does not build a one-node tree: it returns the
hard-coded 19-node demo tree whose root `r1` already lists the two children
`n1` and `v1` (the root's `parentId`, `move` and `uci` are absent and its
`ply` is 0, and its position is the standard initial position, as the claim
says, but the node count is 19, not 1). -/
theorem C3_demo_tree :
    makeInitialTree.nodes.length = 19 ∧
    makeInitialTree.rootId = "r1" ∧
    findNode makeInitialTree "r1" =
      some { id := "r1", parentId := none, children := ["n1", "v1"], move := none,
             uci := none,
             fen := "rnbqkbnr/pppppppp/8/8/8/8/PPPPPPPP/RNBQKBNR w KQkq - 0 1", ply := 0 } := by
  refine ⟨by decide, rfl, by decide⟩


/-- C5 counterexample: `gotoNode` happily moves the cursor to the id `zz`
that has no node in the tree — there is no `NotFound` failure. -/
theorem C5_counterexample :
    (gotoNode navState "zz").currentId = "zz" ∧
      alookup "zz" (gotoNode navState "zz").nodes = none :=
  ⟨rfl, rfl⟩

/-- C5 (amended): `gotoNode(id)` performs no membership check at all: it
always sets `currentNodeId` to `id` (clearing the square selection and the
status message) and leaves the tree untouched. -/
theorem C5_goto_unconditional (st : AppState) (id : String) :
    (gotoNode st id).currentId = id ∧ (gotoNode st id).nodes = st.nodes ∧
      (gotoNode st id).selectedSquare = none ∧ (gotoNode st id).statusMsg = "" :=
  ⟨rfl, rfl, rfl, rfl⟩

/-- C6: when the rules engine rejects the move, `addMoveUci` only sets the
illegal-move status message: the node mapping, the cursor, the id counter —
the whole state except the message — are unchanged. -/
theorem C6_illegal_move_atomic
    (engine : String → String → String → Option String → Option EngineMove)
    (st : AppState) (f t : String) (promo : Option String) (cur : MoveNode)
    (hcur : alookup st.currentId st.nodes = some cur)
    (heng : engine cur.fen f t promo = none) :
    addMoveUci engine st f t promo =
      some { st with statusMsg := "Illegal move: " ++ f ++ "-" ++ t } := by
  unfold addMoveUci
  simp only [hcur, heng]


/-- C6 witness: the atomicity theorem applied to a concrete state and the
always-rejecting engine. -/
theorem C6_witness :
    addMoveUci engineReject navState "e2" "e5" none =
      some { navState with statusMsg := "Illegal move: " ++ "e2" ++ "-" ++ "e5" } :=
  C6_illegal_move_atomic engineReject navState "e2" "e5" none
    { id := "r1", parentId := none, children := [], move := none, uci := none,
      fen := "F0", ply := 0 } rfl rfl

/-- C7 (amended): when the rules engine accepts the move AND the generated
id `n<counter>` is not already a key of the mapping, `addMoveUci` grows the
mapping by exactly one node, gives the new node `ply = parent.ply + 1`,
appends the new id as the last entry of the parent's `children` (all prior
entries kept in order, all other parent fields unchanged), leaves every
other node of the tree untouched, and advances the cursor to the new node.
The freshness condition is not vacuous: the shipped demo tree's ids
`n1`–`n9` were never drawn from `genId`'s counter, the spread
`{...prev, [newId]: node}` overwrites an existing key in place, and so the
first moves played on that tree destroy existing nodes with no growth in
node count — the unamended claim fails there (see the C7 counterexample). -/
theorem C7_growth_frame
    (engine : String → String → String → Option String → Option EngineMove)
    (st : AppState) (fsq tsq : String) (promo : Option String) (cur : MoveNode)
    (res : EngineMove)
    (hcur : alookup st.currentId st.nodes = some cur)
    (heng : engine cur.fen fsq tsq promo = some res)
    (hfresh : alookup ("n" ++ toString st.nextN) st.nodes = none) :
    ∃ st', addMoveUci engine st fsq tsq promo = some st' ∧
      st'.nodes.length = st.nodes.length + 1 ∧
      alookup ("n" ++ toString st.nextN) st'.nodes =
        some { id := "n" ++ toString st.nextN, parentId := some st.currentId,
               children := [], move := some res.san,
               uci := some (fsq ++ tsq ++ promo.getD ""), fen := res.fen,
               ply := cur.ply + 1 } ∧
      alookup st.currentId st'.nodes =
        some { cur with children := cur.children ++ ["n" ++ toString st.nextN] } ∧
      (∀ k, k ≠ st.currentId → k ≠ "n" ++ toString st.nextN →
        alookup k st'.nodes = alookup k st.nodes) ∧
      st'.currentId = "n" ++ toString st.nextN := by
  have hne : ("n" ++ toString st.nextN) ≠ st.currentId := by
    intro he
    rw [he, hcur] at hfresh
    cases hfresh
  have hnode :
      ∀ node : MoveNode,
        alookup st.currentId (objSet st.nodes ("n" ++ toString st.nextN) node) = some cur := by
    intro node
    rw [alookup_objSet_ne (Ne.symm hne)]
    exact hcur
  refine ⟨{ st with
      nodes := objSet (objSet st.nodes ("n" ++ toString st.nextN)
          { id := "n" ++ toString st.nextN, parentId := some st.currentId,
            children := [], move := some res.san,
            uci := some (fsq ++ tsq ++ promo.getD ""), fen := res.fen,
            ply := cur.ply + 1 }) st.currentId
          { cur with children := cur.children ++ ["n" ++ toString st.nextN] },
      currentId := "n" ++ toString st.nextN, selectedSquare := none,
      statusMsg := "Played " ++ res.san, nextN := st.nextN + 1 },
    ?_, ?_, ?_, ?_, ?_, rfl⟩
  · unfold addMoveUci
    simp only [hcur, heng, hnode]
  · rw [length_objSet_of_isSome (by rw [hnode]; rfl)]
    rw [objSet_of_alookup_none hfresh]
    simp
  · rw [alookup_objSet_ne hne]
    exact alookup_objSet_self _ _ _
  · exact alookup_objSet_self _ _ _
  · intro k hk1 hk2
    rw [alookup_objSet_ne hk1, alookup_objSet_ne hk2]


/-- C7 witness: the growth/frame theorem applied to the concrete one-node
state and the always-accepting engine. -/
theorem C7_witness :
    ∃ st', addMoveUci engineAccept navState "e2" "e4" none = some st' ∧
      st'.nodes.length = navState.nodes.length + 1 ∧
      alookup "n2" st'.nodes =
        some { id := "n2", parentId := some "r1", children := [], move := some "e4",
               uci := some "e2e4", fen := "F1", ply := 1 } ∧
      alookup "r1" st'.nodes =
        some { id := "r1", parentId := none, children := ["n2"], move := none,
               uci := none, fen := "F0", ply := 0 } ∧
      (∀ k, k ≠ "r1" → k ≠ "n2" → alookup k st'.nodes = alookup k navState.nodes) ∧
      st'.currentId = "n2" :=
  C7_growth_frame engineAccept navState "e2" "e4" none
    { id := "r1", parentId := none, children := [], move := none, uci := none,
      fen := "F0", ply := 0 } { san := "e4", fen := "F1" } rfl rfl rfl

/-- C7 counterexample: `addMoveUci` has no freshness guarantee for the id
it generates, and on collision the spread `{...prev, [newId]: node}`
overwrites the existing node in place.  `collideTree` satisfies every §3
invariant (and validates clean) yet already contains `n2`, the id `genId`
produces next: an accepted move from the root then leaves the node count
unchanged (2, not 3), destroys the prior child node `n2` (1...e5 becomes
1.e4), and leaves the root listing `n2` twice.  The shipped demo tree puts
the program in exactly this situation — after mounting, the counter stands
at 2 while `n2`–`n9` already name nodes — and its node count likewise
stays at 19 after an accepted move. -/
theorem C7_counterexample :
    specWellFormed collideTree = true ∧
    (validateTree collideTree).errors = [] ∧
    (addMoveUci engineAccept collideState "e2" "e4" none).map (fun st => st.nodes.length) =
      some collideState.nodes.length ∧
    alookup "n2" collideState.nodes =
      some { id := "n2", parentId := some "r1", children := [], move := some "e5",
             uci := some "e7e5", fen := "F2", ply := 1 } ∧
    (addMoveUci engineAccept collideState "e2" "e4" none).bind (fun st => alookup "n2" st.nodes) =
      some { id := "n2", parentId := some "r1", children := [], move := some "e4",
             uci := some "e2e4", fen := "F1", ply := 1 } ∧
    (addMoveUci engineAccept collideState "e2" "e4" none).bind (fun st => alookup "r1" st.nodes) =
      some { id := "r1", parentId := none, children := ["n2", "n2"], move := none,
             uci := none, fen := "F0", ply := 0 } ∧
    (addMoveUci engineAccept demoState "e2" "e4" none).map (fun st => st.nodes.length) =
      some demoState.nodes.length :=
  ⟨by decide, by decide, rfl, rfl, rfl, rfl, rfl⟩

/-! ## Termination of the depth walk -/


theorem unvisitedCount_lt {nodes : List (String × MoveNode)} {visited : List String}
    {nodeId : String} (hmem : nodeId ∈ nodes.map Prod.fst) (hnv : nodeId ∉ visited) :
    unvisitedCount nodes (nodeId :: visited) < unvisitedCount nodes visited := by
  apply Finset.card_lt_card
  constructor
  · intro k hk
    simp only [Finset.mem_filter, List.mem_cons] at hk ⊢
    exact ⟨hk.1, fun h => hk.2 (Or.inr h)⟩
  · intro hsub
    have h1 : nodeId ∈ (nodes.map Prod.fst).toFinset.filter (fun k => k ∉ visited) := by
      simp only [Finset.mem_filter, List.mem_toFinset]
      exact ⟨hmem, hnv⟩
    have h2 := hsub h1
    simp only [Finset.mem_filter, List.mem_cons] at h2
    exact h2.2 (Or.inl trivial)

theorem omapM_isSome_of_forall {f : α → Option β} {l : List α}
    (h : ∀ a ∈ l, (f a).isSome) : (omapM f l).isSome := by
  induction l with
  | nil => rfl
  | cons a rest ih =>
    have ha := h a (List.mem_cons_self a rest)
    obtain ⟨b, hb⟩ := Option.isSome_iff_exists.1 ha
    have hrest := ih fun x hx => h x (List.mem_cons_of_mem a hx)
    obtain ⟨bs, hbs⟩ := Option.isSome_iff_exists.1 hrest
    simp [omapM, hb, hbs]

theorem calculateDepthFuel_isSome (nodes : List (String × MoveNode)) :
    ∀ (fuel : Nat) (visited : List String) (nodeId : String),
      unvisitedCount nodes visited < fuel →
      (calculateDepthFuel nodes fuel nodeId visited).isSome := by
  intro fuel
  induction fuel with
  | zero => intro visited nodeId h; cases h
  | succ fuel ih =>
    intro visited nodeId h
    unfold calculateDepthFuel
    by_cases hv : nodeId ∈ visited
    · simp [hv]
    · simp only [hv, if_false, if_neg hv]
      cases hf : alookup nodeId nodes with
      | none => simp
      | some node =>
        by_cases hc : node.children.isEmpty
        · simp [hc]
        · simp only [hc, if_false]
          have hmem : nodeId ∈ nodes.map Prod.fst := (alookup_isSome nodeId nodes).1 (by rw [hf]; rfl)
          have hlt : unvisitedCount nodes (nodeId :: visited) < fuel :=
            Nat.lt_of_lt_of_le (unvisitedCount_lt hmem hv) (Nat.lt_succ_iff.1 h)
          have hall : ∀ c ∈ node.children,
              (calculateDepthFuel nodes fuel c (nodeId :: visited)).isSome :=
            fun c _ => ih (nodeId :: visited) c hlt
          obtain ⟨ds, hds⟩ := Option.isSome_iff_exists.1 (omapM_isSome_of_forall hall)
          simp [hds]

/-- C9: the depth walk terminates on every finite node mapping and every
start id — even a cyclic `children` adjacency that bypassed validation —
because the per-call visited set shrinks the unvisited-key measure: a fuel
budget of one more than the number of nodes always suffices to produce an
answer. -/
theorem C9_depth_terminates (nodes : List (String × MoveNode)) (startId : String) :
    ∃ d, calculateDepthFuel nodes (nodes.length + 1) startId [] = some d := by
  apply Option.isSome_iff_exists.1
  apply calculateDepthFuel_isSome
  apply Nat.lt_succ_of_le
  calc unvisitedCount nodes []
      ≤ (nodes.map Prod.fst).toFinset.card := Finset.card_filter_le _ _
    _ ≤ (nodes.map Prod.fst).length := List.toFinset_card_le _
    _ = nodes.length := List.length_map _ _

/-! ## Round trip of the codec -/

theorem jToString_str (s : String) : jToString (Json.str s) = s := rfl

theorem jFalsy_cleanNodeJson (n : RawNode) : jFalsy (cleanNodeJson n) = false := rfl

theorem map_jToString_str (l : List String) : List.map (jToString ∘ Json.str) l = l := by
  induction l with
  | nil => rfl
  | cons a l ih => simp only [List.map_cons, Function.comp_apply, jToString_str, ih]

theorem decodeNode_clean (k : String) (n : MoveNode) (hid : n.id = k) :
    decodeNode k (cleanNodeJson n.toRaw) = .ok n := by
  subst hid
  obtain ⟨id, parentId, children, move, uci, fen, ply⟩ := n
  simp only at *
  cases parentId <;> cases move <;> cases uci <;>
    simp [decodeNode, cleanNodeJson, MoveNode.toRaw, alookup, jToString,
          List.map_map, map_jToString_str]

theorem decodeNodes_clean :
    ∀ (l acc : List (String × MoveNode)),
      (((acc ++ l).map Prod.fst).Nodup) →
      (∀ kv ∈ l, kv.2.id = kv.1) →
      decodeNodes (l.map fun kv => (kv.1, cleanNodeJson kv.2.toRaw)) acc = .ok (acc ++ l) := by
  intro l
  induction l with
  | nil => intro acc _ _; simp [decodeNodes]
  | cons kv rest ih =>
    intro acc hnd hid
    obtain ⟨k, n⟩ := kv
    have hidk : n.id = k := hid (k, n) (List.mem_cons_self _ _)
    have hfresh : alookup k acc = none := by
      rw [alookup_eq_none]
      intro hk
      rw [List.map_append, List.nodup_append] at hnd
      exact hnd.2.2 hk (by simp)
    simp only [List.map_cons, decodeNodes, decodeNode_clean k n hidk]
    rw [objSet_of_alookup_none hfresh]
    have hnd' : (((acc ++ [(k, n)]) ++ rest).map Prod.fst).Nodup := by
      simpa [List.append_assoc] using hnd
    have hid' : ∀ kv ∈ rest, kv.2.id = kv.1 :=
      fun kv hkv => hid kv (List.mem_cons_of_mem _ hkv)
    have := ih (acc ++ [(k, n)]) hnd' hid'
    simpa [List.append_assoc] using this

theorem serializeCleanNodes_map_some (l : List (String × RawNode)) :
    serializeCleanNodes (l.map fun kv => (kv.1, some kv.2)) =
      .ok (l.map fun kv => (kv.1, cleanNodeJson kv.2)) := by
  induction l with
  | nil => rfl
  | cons kv rest ih =>
    obtain ⟨k, n⟩ := kv
    simp [serializeCleanNodes, ih]

/-- The shared round-trip fact: encoding a tree with unique keys, matching
ids, an existing root node and a truthy root id, then decoding the wire
value, returns exactly the original tree. -/
theorem roundTrip_ok (t : ChessMoveTree)
    (hnd : (t.nodes.map Prod.fst).Nodup)
    (h2 : specInv2 t = true)
    (hroot : (alookup t.rootId t.nodes).isSome)
    (hr : t.rootId ≠ "") :
    (serializeTreeCore (some t.toRaw)).bind deserializeTree = .ok t := by
  obtain ⟨root, hrootx⟩ := Option.isSome_iff_exists.1 hroot
  have hser : serializeTreeCore (some t.toRaw) =
      .ok (Json.obj
        [("nodes", Json.obj (t.nodes.map fun kv => (kv.1, cleanNodeJson kv.2.toRaw))),
         ("rootId", Json.str t.rootId)]) := by
    unfold serializeTreeCore ChessMoveTree.toRaw
    simp only []
    rw [if_neg hr]
    have hjoin : alookup t.rootId (t.nodes.map fun kv => (kv.1, some kv.2.toRaw)) =
        some (some root.toRaw) := by
      rw [alookup_map_value t.rootId (fun v => some v.toRaw) t.nodes, hrootx]
      rfl
    have hclean : serializeCleanNodes (t.nodes.map fun kv => (kv.1, some kv.2.toRaw)) =
        .ok (t.nodes.map fun kv => (kv.1, cleanNodeJson kv.2.toRaw)) := by
      have hmm : (t.nodes.map fun kv => ((kv.1 : String), some kv.2.toRaw)) =
          ((t.nodes.map fun kv => (kv.1, kv.2.toRaw)).map fun kv => (kv.1, some kv.2)) := by
        rw [List.map_map]
        rfl
      rw [hmm, serializeCleanNodes_map_some, List.map_map]
      rfl
    rw [hjoin]
    simp [hclean]
  rw [hser]
  show deserializeTree _ = _
  unfold deserializeTree
  have hb : (t.rootId == "") = false := by
    rw [beq_eq_false_iff_ne]
    exact hr
  have hids : ∀ kv ∈ t.nodes, (kv.2.id = kv.1) := by
    intro kv hkv
    have := List.all_eq_true.1 h2 kv hkv
    simpa [beq_iff_eq] using this
  have hdec := decodeNodes_clean t.nodes [] (by simpa using hnd) hids
  simp only [List.nil_append] at hdec
  obtain ⟨fs, hfs⟩ : ∃ fs, cleanNodeJson root.toRaw = Json.obj fs := ⟨_, rfl⟩
  have hlook : alookup t.rootId (t.nodes.map fun kv => (kv.1, cleanNodeJson kv.2.toRaw)) =
      some (Json.obj fs) := by
    rw [alookup_map_value t.rootId (fun v => cleanNodeJson v.toRaw) t.nodes, hrootx, ← hfs]
    rfl
  simp [jFalsy, jGetField, alookup, jToString_str, hb, hlook, hrootx,
        optFalsy, hdec]

theorem wf_inv1_inv2 (t : ChessMoveTree) (h : specWellFormed t = true) :
    specInv1 t = true ∧ specInv2 t = true := by
  simp only [specWellFormed, Bool.and_eq_true] at h
  exact ⟨h.1.1.1.1.1, h.1.1.1.1.2⟩

theorem rootExists_of_inv1 (t : ChessMoveTree) (h1 : specInv1 t = true) :
    (alookup t.rootId t.nodes).isSome := by
  unfold specInv1 findNode at h1
  cases hf : alookup t.rootId t.nodes with
  | none => rw [hf] at h1; cases h1
  | some r => rfl


/-- C2 counterexample: `emptyIdTree` satisfies invariants 1–5 and 7 and has
unique keys, yet `decode(encode(t))` does not return the tree — the encoder
throws on its falsy (empty-string) root id, so the round trip yields no tree
at all. -/
theorem C2_counterexample :
    specWellFormed emptyIdTree = true ∧
    (emptyIdTree.nodes.map Prod.fst).Nodup ∧
    (serializeTreeCore (some emptyIdTree.toRaw)).bind deserializeTree =
      .error "Tree must have a rootId string property" :=
  ⟨by decide, by decide, rfl⟩

/-- C2 (amended): for every tree satisfying the data-model invariants of §3
(with its unique-key node mapping) whose root id is moreover nonempty (the
encoder rejects a falsy root id), decoding the encoded wire value returns
exactly the original tree: same node count, same `rootId`, and for every
node the same `parentId`, `children` order, `move`/`uci` fields, `fen` and
`ply`. -/
theorem C2_round_trip (t : ChessMoveTree)
    (hnd : (t.nodes.map Prod.fst).Nodup)
    (hwf : specWellFormed t = true)
    (hr : t.rootId ≠ "") :
    (serializeTreeCore (some t.toRaw)).bind deserializeTree = .ok t := by
  obtain ⟨h1, h2⟩ := wf_inv1_inv2 t hwf
  exact roundTrip_ok t hnd h2 (rootExists_of_inv1 t h1) hr


/-- C2 witness: the round-trip theorem applied to the concrete two-node
tree. -/
theorem C2_witness :
    (serializeTreeCore (some sampleTree.toRaw)).bind deserializeTree = .ok sampleTree :=
  C2_round_trip sampleTree (by decide) (by decide) (by decide)

/-- C8: encode∘decode∘encode is byte-identical to encode for every tree
satisfying §3's invariants (unique keys included): the encoder emits node
fields in the stable key order `id`, `parentId`, `children`, `move`, `uci`,
`fen`, `ply`, decode inverts it exactly, and when the encoder rejects the
tree the second pipeline fails with the byte-identical error.  The wire
string is `Json.stringify` of the wire value (`serializeTree`). -/
theorem C8_encode_idempotent (t : ChessMoveTree)
    (hnd : (t.nodes.map Prod.fst).Nodup)
    (hwf : specWellFormed t = true) :
    (serializeTreeCore (some t.toRaw)).bind (fun j =>
        (deserializeTree j).bind (fun t2 => serializeTree (some t2.toRaw)))
      = serializeTree (some t.toRaw) := by
  by_cases hr : t.rootId = ""
  · have hser : serializeTreeCore (some t.toRaw) =
        .error "Tree must have a rootId string property" := by
      unfold serializeTreeCore ChessMoveTree.toRaw
      simp [hr]
    rw [hser]
    unfold serializeTree
    rw [hser]
    rfl
  · obtain ⟨h1, h2⟩ := wf_inv1_inv2 t hwf
    have h := roundTrip_ok t hnd h2 (rootExists_of_inv1 t h1) hr
    cases hser : serializeTreeCore (some t.toRaw) with
    | error e => rw [hser] at h; cases h
    | ok j =>
      rw [hser] at h
      have hdes : deserializeTree j = .ok t := h
      unfold serializeTree
      rw [hser]
      show (deserializeTree j).bind (fun t2 => serializeTree (some t2.toRaw)) = _
      rw [hdes]
      show serializeTree (some t.toRaw) = _
      unfold serializeTree
      rw [hser]

/-- C8 witness: string-level idempotence at the concrete two-node tree. -/
theorem C8_witness :
    (serializeTreeCore (some sampleTree.toRaw)).bind (fun j =>
        (deserializeTree j).bind (fun t2 => serializeTree (some t2.toRaw)))
      = serializeTree (some sampleTree.toRaw) :=
  C8_encode_idempotent sampleTree (by decide) (by decide)

/-! ## Decode coercion facts -/

theorem decodeNode_fields {k : String} {nj : Json} {n : MoveNode}
    (h : decodeNode k nj = .ok n) :
    n.id = k ∧
    n.children = (match jGetField nj "children" with
                  | some (.arr xs) => xs.map jToString
                  | _ => []) ∧
    n.move = (jGetField nj "move").map jToString ∧
    n.uci = (jGetField nj "uci").map jToString ∧
    n.ply = (match jGetField nj "ply" with
             | some (.num m) => m
             | _ => 0) := by
  cases nj with
  | obj fields =>
    simp only [decodeNode] at h
    cases hid : alookup "id" fields with
    | none => simp only [hid] at h; simp at h
    | some v =>
      cases v with
      | str s =>
        simp only [hid] at h
        by_cases hs : s = k
        · rw [if_pos hs] at h
          injection h with hn
          subst hn
          exact ⟨rfl, rfl, rfl, rfl, rfl⟩
        · rw [if_neg hs] at h
          simp at h
      | null => simp only [hid] at h; simp at h
      | bool b => simp only [hid] at h; simp at h
      | num m => simp only [hid] at h; simp at h
      | arr xs => simp only [hid] at h; simp at h
      | obj fs => simp only [hid] at h; simp at h
  | null => simp [decodeNode] at h
  | bool b => simp [decodeNode] at h
  | num m => simp [decodeNode] at h
  | str s => simp [decodeNode] at h
  | arr xs => simp [decodeNode] at h

theorem decodeNodes_preserves :
    ∀ (l : List (String × Json)) (acc ns : List (String × MoveNode)),
      decodeNodes l acc = .ok ns →
      ∀ k, k ∉ l.map Prod.fst → alookup k ns = alookup k acc := by
  intro l
  induction l with
  | nil =>
    intro acc ns h k _
    have : acc = ns := by simpa [decodeNodes] using h
    rw [this]
  | cons kv rest ih =>
    intro acc ns h k hk
    obtain ⟨k0, nj0⟩ := kv
    simp only [decodeNodes] at h
    cases hd : decodeNode k0 nj0 with
    | error e => simp only [hd] at h; simp at h
    | ok n0 =>
      simp only [hd] at h
      have hne : k ≠ k0 := by
        intro he
        exact hk (by simp [he])
      have hrest : k ∉ rest.map Prod.fst := fun hmm => hk (by simp [hmm])
      rw [ih (objSet acc k0 n0) ns h k hrest]
      exact alookup_objSet_ne hne n0 acc

theorem decodeNodes_mem_spec :
    ∀ (l : List (String × Json)) (acc ns : List (String × MoveNode)),
      ((acc.map Prod.fst ++ l.map Prod.fst).Nodup) →
      decodeNodes l acc = .ok ns →
      ∀ k nj, (k, nj) ∈ l →
        ∃ n, decodeNode k nj = .ok n ∧ alookup k ns = some n := by
  intro l
  induction l with
  | nil =>
    intro acc ns _ _ k nj hmem
    cases hmem
  | cons kv rest ih =>
    intro acc ns hnd h k nj hmem
    obtain ⟨k0, nj0⟩ := kv
    simp only [decodeNodes] at h
    cases hd : decodeNode k0 nj0 with
    | error e => simp only [hd] at h; simp at h
    | ok n0 =>
      simp only [hd] at h
      have hk0acc : alookup k0 acc = none := by
        rw [alookup_eq_none]
        intro hin
        rw [List.nodup_append] at hnd
        exact hnd.2.2 hin (by simp)
      have hset : objSet acc k0 n0 = acc ++ [(k0, n0)] :=
        objSet_of_alookup_none hk0acc n0
      rcases List.mem_cons.1 hmem with hhd | htl
      · cases hhd
        refine ⟨n0, hd, ?_⟩
        have hkrest : k ∉ rest.map Prod.fst := by
          rw [List.nodup_append] at hnd
          intro hin
          exact (List.nodup_cons.1 hnd.2.1).1 hin
        rw [decodeNodes_preserves rest (objSet acc k n0) ns h k hkrest]
        exact alookup_objSet_self k n0 acc
      · have hnd' : (((acc ++ [(k0, n0)]).map Prod.fst) ++ rest.map Prod.fst).Nodup := by
          simpa [List.append_assoc] using hnd
        rw [hset] at h
        exact ih (acc ++ [(k0, n0)]) ns hnd' h k nj htl

/-- C4: on every parsed wire value that `deserializeTree` accepts (with the
unique entry keys JSON.parse guarantees), every node of the returned tree is
the declared-shape coercion of its wire entry: its `id` is the key string,
its `children` are the `String`-coerced elements when the wire field is an
array and the empty list otherwise, absent `move`/`uci` stay absent (present
ones are `String`-coerced), and `ply` is kept exactly when the wire value is
a number and defaulted to 0 otherwise. -/
theorem jFalsy_obj (l : List (String × Json)) : jFalsy (Json.obj l) = false := rfl

theorem C4_decode_coercion (j : Json) (entries : List (String × Json)) (t : ChessMoveTree)
    (hentries : jGetField j "nodes" = some (.obj entries))
    (hnd : (entries.map Prod.fst).Nodup)
    (hok : deserializeTree j = .ok t) :
    ∀ k nj, (k, nj) ∈ entries →
      ∃ n, alookup k t.nodes = some n ∧ n.id = k ∧
        n.children = (match jGetField nj "children" with
                      | some (.arr xs) => xs.map jToString
                      | _ => []) ∧
        n.move = (jGetField nj "move").map jToString ∧
        n.uci = (jGetField nj "uci").map jToString ∧
        n.ply = (match jGetField nj "ply" with
                 | some (.num m) => m
                 | _ => 0) := by
  unfold deserializeTree at hok
  by_cases hjf : jFalsy j = true
  · simp [hjf] at hok
  · cases hroot : jGetField j "rootId" with
    | none => simp [hjf, hentries, hroot, jFalsy_obj] at hok
    | some rootV =>
      by_cases hrf : jFalsy rootV = true
      · simp [hjf, hentries, hroot, hrf, jFalsy_obj] at hok
      · by_cases hrootex : optFalsy (alookup (jToString rootV) entries) = true
        · simp [hjf, hentries, hroot, hrf, hrootex, jFalsy_obj] at hok
        · cases hdec : decodeNodes entries [] with
          | error e => simp [hjf, hentries, hroot, hrf, hrootex, jFalsy_obj, hdec] at hok
          | ok ns =>
            have hok2 : ChessMoveTree.mk ns (jToString rootV) = t := by
              simpa [hjf, hentries, hroot, hrf, hrootex, jFalsy_obj, hdec] using hok
            intro k nj hmem
            obtain ⟨n, hdn, hlk⟩ :=
              decodeNodes_mem_spec entries [] ns (by simpa using hnd) hdec k nj hmem
            obtain ⟨hid2, hch, hmv, huc, hpl⟩ := decodeNode_fields hdn
            refine ⟨n, ?_, hid2, hch, hmv, huc, hpl⟩
            rw [← hok2]
            exact hlk



/-- C4 witness: the coercion theorem applied to the concrete malformed wire
value: the non-array `children` decodes to `[]`, the absent `move`/`uci`
stay absent, and the non-numeric `ply` is defaulted to 0. -/
theorem C4_witness :
    ∃ n, alookup "r1" oddDecoded.nodes = some n ∧ n.id = "r1" ∧
      n.children = [] ∧ n.move = none ∧ n.uci = none ∧ n.ply = 0 :=
  C4_decode_coercion oddNodeJson
    [("r1", .obj [("id", .str "r1"), ("parentId", .null),
                  ("children", .num 5), ("fen", .str "F0"), ("ply", .str "x")])]
    oddDecoded rfl (by simp) rfl "r1"
    (.obj [("id", .str "r1"), ("parentId", .null),
           ("children", .num 5), ("fen", .str "F0"), ("ply", .str "x")])
    (List.mem_singleton.2 rfl)

/-! ## Encoder leniency -/

theorem jGetField_cleanNodeJson_children (n : RawNode) :
    jGetField (cleanNodeJson n) "children" = some (.arr ((n.children.getD []).map .str)) := by
  obtain ⟨id, parentId, children, move, uci, fen, ply⟩ := n
  cases move <;> cases uci <;> simp [cleanNodeJson, jGetField, alookup]

theorem jGetField_cleanNodeJson_ply (n : RawNode) :
    jGetField (cleanNodeJson n) "ply" = some (.num (n.ply.getD 0)) := by
  obtain ⟨id, parentId, children, move, uci, fen, ply⟩ := n
  cases move <;> cases uci <;> simp [cleanNodeJson, jGetField, alookup]

/-- C10 counterexample: `nullNodeTree` passes all four top-level checks —
the tree and its `nodes` mapping are present, its `rootId` `r1` is truthy,
and the `r1` root entry exists and is truthy — yet `serializeTree` raises
on per-node data: its clean-copy loop reads `node.id` of the falsy `b1`
node value, a `TypeError`. -/
theorem C10_counterexample :
    nullNodeTree.nodes.isSome = true ∧
    nullNodeTree.rootId = some "r1" ∧
    (alookup "r1" (nullNodeTree.nodes.getD [])).join.isSome = true ∧
    serializeTreeCore (some nullNodeTree) =
      .error "TypeError: cannot read id of a falsy node value" :=
  ⟨rfl, rfl, rfl, rfl⟩

/-- C10 (amended): once the four top-level checks pass (tree present,
`nodes` mapping present, truthy `rootId`, root node present and truthy),
`serializeTree` succeeds for every tree whose node VALUES are all objects,
never raising on their field data: a node whose `children` is not an array
is written with an empty `children` list and a node whose `ply` is not a
number is written with `ply` 0.  A falsy (`null`) node value, however,
still makes it raise (a `TypeError` at `node.id`) after the four checks
pass. -/
theorem C10_serialize_lenient (rt : RawTree) (l : List (String × RawNode)) (r : String)
    (hnodes : rt.nodes = some (l.map fun kv => (kv.1, some kv.2)))
    (hroot : rt.rootId = some r) (hr : r ≠ "")
    (hex : (alookup r l).isSome)
    (hnd : (l.map Prod.fst).Nodup) :
    serializeTreeCore (some rt) =
      .ok (.obj [("nodes", .obj (l.map fun kv => (kv.1, cleanNodeJson kv.2))),
                 ("rootId", .str r)]) ∧
    ∀ k n, (k, n) ∈ l →
      ∃ nj, alookup k (l.map fun kv => (kv.1, cleanNodeJson kv.2)) = some nj ∧
        jGetField nj "children" = some (.arr ((n.children.getD []).map .str)) ∧
        jGetField nj "ply" = some (.num (n.ply.getD 0)) := by
  constructor
  · unfold serializeTreeCore
    simp only [hnodes, hroot]
    rw [if_neg hr]
    obtain ⟨x, hx⟩ := Option.isSome_iff_exists.1 hex
    have hjoin : alookup r (l.map fun kv => (kv.1, some kv.2)) = some (some x) := by
      rw [alookup_map_value r (fun v => some v) l, hx]
      rfl
    rw [hjoin]
    simp [serializeCleanNodes_map_some]
  · intro k n hmem
    refine ⟨cleanNodeJson n, ?_, jGetField_cleanNodeJson_children n,
            jGetField_cleanNodeJson_ply n⟩
    rw [alookup_map_value k (fun v => cleanNodeJson v) l, alookup_of_mem_nodup hnd hmem]
    rfl

/-- C10 witness: the leniency theorem applied to the concrete runtime tree
whose second node has a non-array `children` and a non-number `ply`. -/
theorem C10_witness :
    serializeTreeCore (some rawLenientTree) =
      .ok (.obj [("nodes", .obj (rawLenientNodes.map fun kv => (kv.1, cleanNodeJson kv.2))),
          ("rootId", .str "r1")]) ∧
    ∀ k n, (k, n) ∈ rawLenientNodes →
      ∃ nj, alookup k (rawLenientNodes.map fun kv => (kv.1, cleanNodeJson kv.2)) = some nj ∧
        jGetField nj "children" = some (.arr ((n.children.getD []).map .str)) ∧
        jGetField nj "ply" = some (.num (n.ply.getD 0)) :=
  C10_serialize_lenient rawLenientTree rawLenientNodes "r1"
    rfl rfl (by decide) (by decide) (by decide)
